import Mathlib

/-!
# Verification of the sweepy acoustic material-identification pipeline

Shallow embedding of the core of the `sweepy` repository:

* the recording orchestrator's timer race (`AudioPipeline.recordAudio`),
* the spectral analyzer (`AudioPipeline.spectralSubtraction`,
  `AudioPipeline.computeSTFT`),
* the feature reducer (`startMaterialScan` in
  `src/app/materials/new/page.tsx`),
* the persistence size cap (`createMaterial` in `src/lib/firestore.ts`),
* the fingerprint matcher (`matchMaterialToCatalog`,
  `calculateNameSimilarity`, `calculateFrequencySimilarity`).

JavaScript floating-point numbers are idealised as exact arithmetic:
rationals (`ℚ`) where the source only adds, multiplies, divides and
compares, reals (`ℝ`) where the source takes square roots or
trigonometric functions.  JS strings are `List Char`.
-/

namespace Sweepy

set_option maxRecDepth 20000

/-! ## 1. Recording orchestrator (`AudioPipeline.recordAudio`)

`recordAudio(duration)` returns a promise governed by a race of two
timers:

* a rejection timer `setTimeout(..., (duration + 1) * 1000)` registered
  first, which rejects with `Error('Recording timeout')` and clears
  state (`cleanup`);
* a stop timer `setTimeout(..., duration * 1000)` registered second,
  whose callback calls `cleanup()` (cancelling the rejection timer via
  `clearTimeout`), concatenates the worklet sample blocks received so
  far in arrival order, builds an `AudioBuffer` via
  `context.createBuffer(1, rawData.length, context.sampleRate)`, and
  only then resolves.

In the JS event loop the timer with the earlier deadline fires first;
for equal deadlines the earlier-registered one (the rejection timer)
fires first.  The Web Audio API specifies that `createBuffer` throws
`NotSupportedError` when the requested frame count is 0, so on a session
that collected no samples the stop-timer callback throws *after* it has
already cancelled the rejection timer and *before* reaching `resolve`:
the exception escapes the timer task and the promise is left unsettled
forever.  The model below resolves that race directly: a recording
session is the requested duration (seconds) together with the schedule
of worklet data messages (arrival time in ms, sample block).  Sample
values are an arbitrary type `α`: the orchestrator only concatenates
them. -/

/-- Outcome of one `recordAudio` call: the promise resolves with the
concatenated raw samples; or the rejection timer fires
(`Error('Recording timeout')`); or the stop-timer callback throws
(`createBuffer` with 0 frames) after cancelling the rejection timer, so
the promise never settles.  The time tag is when the deciding timer
callback ran. -/
inductive RecordResult (α : Type) where
  | success (rawData : List α) (settledAtMs : ℚ)
  | timeout (settledAtMs : ℚ)
  | unsettled (thrownAtMs : ℚ)
  deriving DecidableEq, Repr

/-- Whether the outcome is the `Recording timeout` rejection. -/
def RecordResult.isTimeout {α : Type} : RecordResult α → Bool
  | .success _ _ => false
  | .timeout _ => true
  | .unsettled _ => false

/-- The samples assembled by the stop-timer callback: the chunks
received strictly before the stop time, concatenated in arrival order
(src/unnamed/part_002:245-259). -/
def collectedSamples {α : Type} (durationS : ℚ) (blocks : List (ℚ × List α)) :
    List α :=
  ((blocks.filter (fun b => b.1 < durationS * 1000)).map Prod.snd).flatten

/-- The `AudioPipeline.recordAudio` (src/unnamed/part_002:174-278).
`blocks` is the schedule of worklet data messages: arrival time in ms
paired with the block's samples.  The rejection deadline is
`(duration + 1) * 1000`, the stop timer fires at `duration * 1000`; the
earlier timer wins (ties go to the first-registered rejection timer).
The stop-timer callback first runs `cleanup()` (clearing the rejection
timer), then builds the `AudioBuffer` with
`context.createBuffer(1, rawData.length, context.sampleRate)` — which
throws `NotSupportedError` when `rawData.length = 0`, leaving the
promise unsettled — and otherwise resolves with the concatenated
samples. -/
def recordAudio {α : Type} (durationS : ℚ) (blocks : List (ℚ × List α)) :
    RecordResult α :=
  if (durationS + 1) * 1000 ≤ durationS * 1000 then
    .timeout ((durationS + 1) * 1000)
  else if (collectedSamples durationS blocks).length = 0 then
    .unsettled (durationS * 1000)
  else
    .success (collectedSamples durationS blocks) (durationS * 1000)

/-! ## 2. Fingerprint matcher (src/unnamed/part_003)

`matchMaterialToCatalog` scores every catalog entry by name similarity
and (when both sides carry frequency data) peak similarity, keeps the
entries whose combined confidence exceeds 0.5, sorts them by descending
confidence and returns the first five. -/

/-- JS `String.prototype.toLowerCase`, per character. -/
def jsToLower (s : List Char) : List Char := s.map Char.toLower

/-- The `calculateNameSimilarity` (src/unnamed/part_003:89-98).  JS
`str1.includes(str2)` is substring (infix) containment; for the
character-overlap branch, `longer.includes(char)` on a one-character
string is membership of that character. -/
def calculateNameSimilarity (str1 str2 : List Char) : ℚ :=
  if str1 = str2 then 1
  else if str2 <:+: str1 ∨ str1 <:+: str2 then 9/10
  else
    let longer := if str2.length < str1.length then str1 else str2
    let shorter := if str2.length < str1.length then str2 else str1
    let overlap := (shorter.filter (fun c => longer.contains c)).length
    (overlap : ℚ) / (longer.length : ℚ)

/-- The name similarity as the matcher invokes it: both arguments are
lower-cased first (`materialName.toLowerCase()`,
`catalogItem.materialName.toLowerCase()`). -/
def nameSimilarity (s1 s2 : List Char) : ℚ :=
  calculateNameSimilarity (jsToLower s1) (jsToLower s2)

/-- One entry of a `topPeaks` list (the matcher reads only `frequency`). -/
structure PeakEntry where
  frequency : ℚ
  magnitude : ℚ
  deriving DecidableEq, Repr

/-- The frequency-feature payload stored with a material (`topPeaks` of
the persisted fingerprint record). -/
structure FreqFeatures where
  topPeaks : List PeakEntry
  deriving DecidableEq, Repr

/-- The `calculateFrequencySimilarity` (src/unnamed/part_003:103-130): for
each query peak, scan catalog peaks and count it matched as soon as one
lies within 50 Hz (`break` after the first hit); the score is the
matched count over the larger peak-list length. -/
def calculateFrequencySimilarity (freq1 freq2 : FreqFeatures) : ℚ :=
  let peaks1 := freq1.topPeaks
  let peaks2 := freq2.topPeaks
  if peaks1.length = 0 ∨ peaks2.length = 0 then 0
  else
    let matched := peaks1.countP
      (fun p1 => peaks2.any (fun p2 => |p1.frequency - p2.frequency| < 50))
    (matched : ℚ) / (max peaks1.length peaks2.length : ℚ)

/-- The `matchReason` enum `'frequency' | 'name' | 'both' | 'none'`. -/
inductive MatchReason where
  | frequencyOnly
  | nameOnly
  | both
  | noReason
  deriving DecidableEq, Repr

/-- A catalog document as the matcher reads it. -/
structure CatalogEntry where
  docId : ℕ
  materialName : List Char
  averageFrequencyData : Option FreqFeatures
  deriving DecidableEq, Repr

/-- One element of the returned `MaterialMatchResult[]`. -/
structure MatchResult where
  materialId : ℕ
  materialName : List Char
  confidence : ℚ
  matchReason : MatchReason
  deriving DecidableEq, Repr

/-- Scoring of a single catalog entry: the body of the
`allCatalog.forEach` loop in `matchMaterialToCatalog`
(src/unnamed/part_003:38-75), returning `some` exactly when the
candidate is pushed (`confidence > 0.5`). -/
def scoreCatalogEntry (materialName : List Char)
    (frequencyData : Option FreqFeatures) (item : CatalogEntry) :
    Option MatchResult :=
  let nameSim := nameSimilarity materialName item.materialName
  let confidence1 : ℚ := if 7/10 < nameSim then nameSim * (6/10) else 0
  let reason1 : MatchReason :=
    if 7/10 < nameSim then MatchReason.nameOnly else MatchReason.noReason
  let freqSim : ℚ :=
    match frequencyData, item.averageFrequencyData with
    | some fd, some cd => calculateFrequencySimilarity fd cd
    | _, _ => 0
  let freqApplies : Bool :=
    frequencyData.isSome && item.averageFrequencyData.isSome && decide (6/10 < freqSim)
  let confidence : ℚ := if freqApplies then confidence1 + freqSim * (4/10) else confidence1
  let reason : MatchReason :=
    if freqApplies then
      (if reason1 = MatchReason.noReason then MatchReason.frequencyOnly
       else MatchReason.both)
    else reason1
  if 1/2 < confidence then
    some ⟨item.docId, item.materialName, confidence, reason⟩
  else
    none

/-- Descending-confidence comparison used for
`matches.sort((a, b) => b.confidence - a.confidence)`. -/
def confDesc (a b : MatchResult) : Prop := b.confidence ≤ a.confidence

instance : DecidableRel confDesc := fun a b =>
  inferInstanceAs (Decidable (b.confidence ≤ a.confidence))

/-- The `matchMaterialToCatalog` (src/unnamed/part_003:28-84): score every
catalog document, keep those with confidence above 0.5, sort by
descending confidence and return the top five. -/
def matchMaterialToCatalog (materialName : List Char)
    (frequencyData : Option FreqFeatures) (catalog : List CatalogEntry) :
    List MatchResult :=
  let accepted := catalog.filterMap (scoreCatalogEntry materialName frequencyData)
  (accepted.insertionSort confDesc).take 5

/-! ## 3. Feature reducer (`startMaterialScan`, src/app/materials/new/page.tsx:451-487)
and persistence size cap (`createMaterial`, src/lib/firestore.ts:53-68)

The reducer decimates the frequency profile with a stride of 50
(`for (let i = 0; i < originalFreqs.length; i += 50)`), then computes the
global peak (`indexOf` of `Math.max`) and the top five peaks (stable sort
descending by magnitude, then `slice(0, 5)`).  The persistence layer
re-decimates `frequencies`/`magnitudes` with stride
`Math.ceil(length / 200)` whenever more than 200 entries remain.

Magnitudes only ever flow through comparisons (`Math.max`, the sort
comparator) so the reducer is modelled generically over a linearly
ordered type of sample values. -/

/-- Stride decimation, walking the list with a countdown to the next
retained index: `k = 0` means the current index is a multiple of `step`
(retain, restart the countdown at `step - 1`). -/
def everyNthAux (step : ℕ) : List α → ℕ → List α
  | [], _ => []
  | a :: as, 0 => a :: everyNthAux step as (step - 1)
  | _ :: as, k + 1 => everyNthAux step as k

/-- Stride-`step` decimation: the elements at indices `0, step, 2·step, …`.
This is both the reducer's `for (…; i += 50)` push loop and the
persistence layer's `filter((_, i) => i % step === 0)`, which retain
exactly those indices. -/
def everyNth (l : List α) (step : ℕ) : List α :=
  everyNthAux step l 0

section Reducer

variable {α : Type} [LinearOrder α]

/-- The `downsampledMags.indexOf(Math.max(...downsampledMags))`
(src/app/materials/new/page.tsx:461-463).  JS `Math.max()` of an empty
spread is `-Infinity`, whose `indexOf` is `-1` and whose subscript reads
`undefined`; the empty case is therefore `none`. -/
def maxMagIndex (mags : List α) : Option ℕ :=
  mags.max?.map (fun m => mags.indexOf m)

/-- Order in which the JS stable sort
`.map((mag, idx) => ({mag, idx})).sort((a, b) => b.mag - a.mag)` emits
the tagged pairs: descending magnitude, and — since a stable sort keeps
the original relative order of entries with equal magnitudes, and the
tagged indices are strictly increasing in the input — ascending index on
ties. -/
def peakOrder (a b : α × ℕ) : Prop :=
  b.1 < a.1 ∨ (a.1 = b.1 ∧ a.2 ≤ b.2)

instance : DecidableRel (peakOrder (α := α)) := fun a b =>
  inferInstanceAs (Decidable (_ ∨ _))

instance : IsTotal (α × ℕ) (peakOrder (α := α)) where
  total a b := by
    rcases lt_trichotomy a.1 b.1 with h | h | h
    · exact Or.inr (Or.inl h)
    · rcases Nat.le_total a.2 b.2 with h2 | h2
      · exact Or.inl (Or.inr ⟨h, h2⟩)
      · exact Or.inr (Or.inr ⟨h.symm, h2⟩)
    · exact Or.inl (Or.inl h)

instance : IsTrans (α × ℕ) (peakOrder (α := α)) where
  trans a b c hab hbc := by
    rcases hab with h1 | ⟨e1, i1⟩
    · rcases hbc with h2 | ⟨e2, _⟩
      · exact Or.inl (h2.trans h1)
      · exact Or.inl (e2 ▸ h1)
    · rcases hbc with h2 | ⟨e2, i2⟩
      · exact Or.inl (e1 ▸ h2)
      · exact Or.inr ⟨e1.trans e2, i1.trans i2⟩

/-- The magnitudes tagged with their retained-order index and stably
sorted descending by magnitude
(src/app/materials/new/page.tsx:466-469). -/
def sortPairs (mags : List α) : List (α × ℕ) :=
  List.insertionSort peakOrder (mags.enum.map (fun p => (p.2, p.1)))

/-- The `slice(0, 5)` call: the five best tagged pairs. -/
def topPeakPairs (mags : List α) : List (α × ℕ) :=
  (sortPairs mags).take 5

/-- The `frequencyData` record built by `startMaterialScan` and handed to
persistence (fields the claims are about).  `peakFrequency`,
`peakMagnitude` and the frequency of each top peak are array subscripts,
which in JS are `undefined` when out of range — hence `Option`. -/
structure ScanFingerprint (α : Type) where
  frequencies : List α
  magnitudes : List α
  peakFrequency : Option α
  peakMagnitude : Option α
  topPeaks : List (Option α × α)
  downsampleStride : ℕ
  deriving DecidableEq

/-- The feature-reduction block of `startMaterialScan`
(src/app/materials/new/page.tsx:451-487): stride-50 decimation of the
profile, global peak via `indexOf(Math.max(...))`, top five peaks via
the stable descending sort. -/
def startMaterialScanFingerprint (freqs mags : List α) : ScanFingerprint α :=
  let dF := everyNth freqs 50
  let dM := everyNth mags 50
  { frequencies := dF
    magnitudes := dM
    peakFrequency := (maxMagIndex dM).bind (fun i => dF.get? i)
    peakMagnitude := (maxMagIndex dM).bind (fun i => dM.get? i)
    topPeaks := (topPeakPairs dM).map (fun p => (dF.get? p.2, p.1))
    downsampleStride := 50 }

/-- The compression step of `createMaterial` (src/lib/firestore.ts:53-68):
if more than 200 frequency entries remain, re-decimate `frequencies` and
`magnitudes` with stride `Math.ceil(length / 200)` (in ℕ:
`(length + 199) / 200`); all other fields — in particular the peaks —
are passed through unchanged. -/
def capFrequencyData (fp : ScanFingerprint α) : ScanFingerprint α :=
  if 200 < fp.frequencies.length then
    let step := (fp.frequencies.length + 199) / 200
    { fp with
      frequencies := everyNth fp.frequencies step
      magnitudes := everyNth fp.magnitudes step }
  else fp

end Reducer

/-- A concrete frequency axis of 10001 points (so the stride-50 retained
set has 201 > 200 entries). -/
def wideFreqs : List ℚ := List.replicate 10001 0

/-- Concrete magnitudes for the same profile: all zero except the single
peak 7 at index 9950 = 50 · 199, which lands at retained position 199 —
an odd position, dropped by the persistence layer's second stride of 2. -/
def wideMags : List ℚ := List.replicate 9950 0 ++ 7 :: List.replicate 50 0

/-! ## 4. Spectral analyzer (src/unnamed/part_002)

`spectralSubtraction` and `computeSTFT` call into the `fft.js` library,
which is modelled at its contract level: `realTransform` reads exactly
the first 32768 input samples and produces the discrete Fourier
transform, `inverseTransform` produces the inverse transform, written
into the zero-initialised output buffer.  Reading or writing a typed
array outside its bounds is the out-of-range branch of the embedding
(`none`). -/

noncomputable section Analyzer

/-- The `FFT_SIZE = 32768` (`n_fft`), also the hard-coded `new FFT(32768)` of
`spectralSubtraction`. -/
def fftSize : ℕ := 32768

/-- The `hopSize = fftSize / 2` (50 % overlap). -/
def hopSize : ℕ := fftSize / 2

/-- The `SAMPLE_RATE = 44100`. -/
def SAMPLE_RATE : ℕ := 44100

/-- The `FREQ_MIN = 1000` Hz. -/
def FREQ_MIN : ℕ := 1000

/-- The `FREQ_MAX = 20000` Hz. -/
def FREQ_MAX : ℕ := 20000

/-- The `THRESHOLD = 1e-5`. -/
def THRESHOLD : ℝ := 1 / 100000

/-- A captured recording (`AudioRecording` of src/unnamed/part_002:14-19;
the derived `audioBuffer` view is omitted). -/
structure AudioRecording where
  rawData : List ℝ
  sampleRate : ℕ
  timestampMs : ℕ

/-- The `Math.hypot`. -/
def jsHypot (a b : ℝ) : ℝ := Real.sqrt (a ^ 2 + b ^ 2)

/-- The `Math.atan2 y x`, as the argument of the complex number `x + y·i`. -/
def jsAtan2 (y x : ℝ) : ℝ := Complex.arg ⟨x, y⟩

/-- Real part of the size-`fftSize` discrete Fourier transform of `x`
(the contract of `fft.realTransform`). -/
def dftRe (x : ℕ → ℝ) (k : ℕ) : ℝ :=
  ∑ j ∈ Finset.range fftSize,
    x j * Real.cos (2 * Real.pi * j * k / fftSize)

/-- Imaginary part of the size-`fftSize` discrete Fourier transform. -/
def dftIm (x : ℕ → ℝ) (k : ℕ) : ℝ :=
  -∑ j ∈ Finset.range fftSize,
    x j * Real.sin (2 * Real.pi * j * k / fftSize)

/-- Sequence of typed-array reads at the given indices: `none` as soon
as one read is out of range. -/
def readAll (x : List ℝ) : List ℕ → Option (List ℝ)
  | [] => some []
  | i :: is =>
    match x[i]?, readAll x is with
    | some v, some vs => some (v :: vs)
    | _, _ => none

/-- The samples `fft.realTransform` reads: exactly indices
`0 … fftSize - 1` of the input, regardless of its length.  A read past
the end of the typed array is out of range (`none`). -/
def readFrame (x : List ℝ) : Option (List ℝ) :=
  readAll x (List.range fftSize)

/-- Bin `k` of the subtracted spectrum:
`magClean = Math.max(0, magSample - magAmbient)`
(src/unnamed/part_002:296-299), from the transforms of the two read
frames. -/
def cleanMagnitude (ambient sample : List ℝ) (k : ℕ) : ℝ :=
  let magSample := jsHypot (dftRe (fun j => sample.getD j 0) k) (dftIm (fun j => sample.getD j 0) k)
  let magAmbient := jsHypot (dftRe (fun j => ambient.getD j 0) k) (dftIm (fun j => ambient.getD j 0) k)
  max 0 (magSample - magAmbient)

/-- The `phase = Math.atan2(sampleFreq[i+1], sampleFreq[i])`
(src/unnamed/part_002:300). -/
def samplePhase (sample : List ℝ) (k : ℕ) : ℝ :=
  jsAtan2 (dftIm (fun j => sample.getD j 0) k) (dftRe (fun j => sample.getD j 0) k)

/-- The `resultFreq[i] = magClean * Math.cos(phase)`. -/
def subResultRe (ambient sample : List ℝ) (k : ℕ) : ℝ :=
  cleanMagnitude ambient sample k * Real.cos (samplePhase sample k)

/-- The `resultFreq[i+1] = magClean * Math.sin(phase)`. -/
def subResultIm (ambient sample : List ℝ) (k : ℕ) : ℝ :=
  cleanMagnitude ambient sample k * Real.sin (samplePhase sample k)

/-- Real part of the inverse discrete Fourier transform (the contract of
`fft.inverseTransform`, whose result is used as time-domain samples). -/
def idftRe (re im : ℕ → ℝ) (j : ℕ) : ℝ :=
  (∑ k ∈ Finset.range fftSize,
    (re k * Real.cos (2 * Real.pi * j * k / fftSize) -
      im k * Real.sin (2 * Real.pi * j * k / fftSize))) / fftSize

/-- Imaginary part of the inverse discrete Fourier transform.
`fft.inverseTransform` fills its output as an interleaved complex
array, so the imaginary parts occupy the odd slots of the buffer it
writes into. -/
def idftIm (re im : ℕ → ℝ) (j : ℕ) : ℝ :=
  (∑ k ∈ Finset.range fftSize,
    (re k * Real.sin (2 * Real.pi * j * k / fftSize) +
      im k * Real.cos (2 * Real.pi * j * k / fftSize))) / fftSize

/-- The sequence of values `fft.inverseTransform(out, data)` writes into
`out`: for each of the 32768 transform points it writes the real part at
slot `2j` and the imaginary part at slot `2j + 1`, an interleaved
complex layout of `2 * 32768 = 65536` entries in slot order. -/
def inverseWrites (re im : ℕ → ℝ) : List ℝ :=
  ((List.range fftSize).map (fun j => [idftRe re im j, idftIm re im j])).flatten

/-- The `AudioPipeline.spectralSubtraction` (src/unnamed/part_002:284-308).
`new FFT(32768)` fixes the transform size regardless of either
recording's length; `realTransform` reads the first 32768 samples of
each recording (out-of-range read if a recording is shorter); the
subtracted spectrum is inverse-transformed into the zero-initialised
output buffer `new Float32Array(ambientRecording.rawData.length)`.
`inverseTransform` writes its full interleaved complex result — all
`2 * 32768` slots — into that buffer; a `Float32Array` silently
discards writes past its end, so the buffer keeps the first
`ambientRecording.rawData.length` written entries and any slots beyond
the write footprint stay at their zero initialisation. -/
def spectralSubtraction (ambient sample : AudioRecording) : Option (List ℝ) :=
  match readFrame ambient.rawData, readFrame sample.rawData with
  | some xa, some xs =>
    let vals := inverseWrites (subResultRe xa xs) (subResultIm xa xs)
    some (vals.take ambient.rawData.length ++
      List.replicate (ambient.rawData.length - vals.length) 0)
  | _, _ => none

/-- The `minBin = Math.floor(FREQ_MIN / binWidth)` with
`binWidth = SAMPLE_RATE / fftSize`. -/
def minBin : ℕ := FREQ_MIN * fftSize / SAMPLE_RATE

/-- The `maxBin = Math.floor(FREQ_MAX / binWidth)`. -/
def maxBin : ℕ := FREQ_MAX * fftSize / SAMPLE_RATE

/-- The `numBins = maxBin - minBin`. -/
def numBins : ℕ := maxBin - minBin

/-- The `numFrames = Math.floor((audioData.length - fftSize) / hopSize) + 1`
— computed in exact (possibly negative) arithmetic, so floor division
over ℤ. -/
def numFrames (len : ℕ) : ℤ :=
  ((len : ℤ) - (fftSize : ℤ)).fdiv (hopSize : ℤ) + 1

/-- The number of iterations of `for (frame = 0; frame < numFrames; …)`:
zero when `numFrames ≤ 0`. -/
def numFramesN (len : ℕ) : ℕ := (numFrames len).toNat

/-- Hann window value `0.5 * (1 - cos(2π·i/(fftSize - 1)))`. -/
def hannWindow (i : ℕ) : ℝ :=
  1 / 2 * (1 - Real.cos (2 * Real.pi * i / ((fftSize : ℝ) - 1)))

/-- Sample `i` of frame `frame` after the bounds-checked copy
(src/unnamed/part_002:330-334): `frameData` is a zero-initialised
size-`fftSize` buffer whose first `copyLength` entries are copied from
`audioData` starting at `offset = frame * hopSize`. -/
def frameSample (audio : List ℝ) (frame i : ℕ) : ℝ :=
  let offset := frame * hopSize
  let copyLength := min fftSize (audio.length - offset)
  if i < copyLength then audio.getD (offset + i) 0 else 0

/-- Frame sample after the in-place Hann window multiplication. -/
def windowedSample (audio : List ℝ) (frame i : ℕ) : ℝ :=
  frameSample audio frame i * hannWindow i

/-- The `frameMagnitudes[bin]` (band-relative bin index): magnitude of
absolute bin `minBin + bin` of the frame's transform, divided by
`fftSize` (src/unnamed/part_002:347-353). -/
def frameBinMagnitude (audio : List ℝ) (frame bin : ℕ) : ℝ :=
  jsHypot (dftRe (windowedSample audio frame) (minBin + bin))
      (dftIm (windowedSample audio frame) (minBin + bin)) / fftSize

/-- The threshold-selective time average (src/unnamed/part_002:362-374):
mean of the frame values above `THRESHOLD`, and `0` when no frame
qualifies. -/
def selectiveAverage (l : List ℝ) : ℝ :=
  let qualifying := l.filter (fun m => decide (THRESHOLD < m))
  if qualifying.length = 0 then 0 else qualifying.sum / (qualifying.length : ℝ)

/-- The `binWidth = SAMPLE_RATE / fftSize` as a real number (the frequency
axis is built from it). -/
def binWidthR : ℝ := (SAMPLE_RATE : ℝ) / (fftSize : ℝ)

/-- The `FrequencyData` record (src/unnamed/part_002:28-33). -/
structure FrequencyData where
  frequencies : List ℝ
  magnitudes : List ℝ
  fftSizeUsed : ℕ
  freqRangeMin : ℕ
  freqRangeMax : ℕ

/-- The `AudioPipeline.computeSTFT` (src/unnamed/part_002:313-384). -/
def computeSTFT (audio : List ℝ) : FrequencyData :=
  { frequencies := (List.range numBins).map
      (fun bin => ((minBin + bin : ℕ) : ℝ) * binWidthR)
    magnitudes := (List.range numBins).map
      (fun bin => selectiveAverage ((List.range (numFramesN audio.length)).map
        (fun frame => frameBinMagnitude audio frame bin)))
    fftSizeUsed := fftSize
    freqRangeMin := FREQ_MIN
    freqRangeMax := FREQ_MAX }

end Analyzer

/-! ## 5. Helper lemmas -/

theorem length_everyNthAux {α : Type} (step : ℕ) (hs : 1 ≤ step) :
    ∀ (l : List α) (k : ℕ),
      (everyNthAux step l k).length = (l.length - k + step - 1) / step := by
  intro l
  induction l with
  | nil =>
    intro k
    simp only [everyNthAux, List.length_nil]
    rw [Nat.div_eq_of_lt (by omega : 0 - k + step - 1 < step)]
  | cons a as ih =>
    intro k
    match k with
    | 0 =>
      simp only [everyNthAux, List.length_cons, ih (step - 1)]
      rcases Nat.le_total (step - 1) as.length with h | h
      · have e1 : as.length - (step - 1) + step - 1 = as.length := by omega
        have e2 : as.length + 1 - 0 + step - 1 = as.length + step := by omega
        rw [e1, e2, Nat.add_div_right _ (by omega : 0 < step)]
      · have e1 : as.length - (step - 1) + step - 1 = step - 1 := by omega
        have e2 : as.length + 1 - 0 + step - 1 = as.length + step := by omega
        rw [e1, e2, Nat.add_div_right _ (by omega : 0 < step),
          Nat.div_eq_of_lt (by omega : step - 1 < step),
          Nat.div_eq_of_lt (by omega : as.length < step)]
    | k + 1 =>
      simp only [everyNthAux, ih k, List.length_cons]
      congr 2
      omega

theorem length_everyNth {α : Type} (l : List α) (step : ℕ) (hs : 1 ≤ step) :
    (everyNth l step).length = (l.length + step - 1) / step := by
  simpa using length_everyNthAux step hs l 0

/-- The decimated length is bounded by 200 once the stride is chosen as
`⌈length / 200⌉`. -/
theorem length_everyNth_cap {α : Type} (l : List α) (h : 200 < l.length) :
    (everyNth l ((l.length + 199) / 200)).length ≤ 200 := by
  set n := l.length with hn
  set st := (n + 199) / 200 with hst
  have hd := Nat.div_add_mod (n + 199) 200
  have hm : (n + 199) % 200 < 200 := Nat.mod_lt _ (by omega)
  have hst1 : 1 ≤ st := by omega
  rw [length_everyNth l st hst1, ← hn]
  rw [Nat.div_le_iff_le_mul_add_pred (by omega : 0 < st)]
  omega

/-- A recording shorter than one transform frame produces zero frames:
`Math.floor((len - 32768) / 16384) + 1 ≤ 0`, so the frame loop never
runs. -/
theorem numFramesN_eq_zero {len : ℕ} (h : len < fftSize) : numFramesN len = 0 := by
  apply Int.toNat_of_nonpos
  unfold numFrames
  have hneg : (len : ℤ) - (fftSize : ℤ) < 0 := by
    have : (len : ℤ) < (fftSize : ℤ) := by exact_mod_cast h
    omega
  have hpos : (0 : ℤ) < (hopSize : ℤ) := by
    norm_num [hopSize, fftSize]
  have := Int.fdiv_neg' hneg hpos
  omega

/-- The selective average of an empty frame list is 0. -/
theorem selectiveAverage_nil : selectiveAverage [] = 0 := by
  simp [selectiveAverage]

/-- The selective average is nonnegative: the frames that survive the
`> THRESHOLD` test are positive, so their mean is, and the no-frame case
is 0. -/
theorem selectiveAverage_nonneg (l : List ℝ) : 0 ≤ selectiveAverage l := by
  unfold selectiveAverage
  by_cases hz : (l.filter (fun m => decide (THRESHOLD < m))).length = 0
  · simp [hz]
  · simp only [hz, if_false]
    apply div_nonneg
    · apply List.sum_nonneg
      intro x hx
      have hx' := List.of_mem_filter hx
      have : THRESHOLD < x := by simpa using hx'
      have hT : (0 : ℝ) ≤ THRESHOLD := by norm_num [THRESHOLD]
      linarith
    · positivity

/-- With fewer samples than one frame, every averaged magnitude is
exactly 0 — `computeSTFT` returns the normal all-zero profile. -/
theorem computeSTFT_short_magnitudes {audio : List ℝ} (h : audio.length < fftSize) :
    (computeSTFT audio).magnitudes = List.replicate numBins 0 := by
  simp only [computeSTFT]
  rw [List.eq_replicate_iff]
  refine ⟨by simp, ?_⟩
  intro b hb
  rw [List.mem_map] at hb
  obtain ⟨bin, _, hb⟩ := hb
  rw [numFramesN_eq_zero h] at hb
  simpa [selectiveAverage_nil] using hb.symm

/-- Splitting a read sequence at an append. -/
theorem readAll_append (x : List ℝ) (l1 l2 : List ℕ) :
    readAll x (l1 ++ l2) =
      match readAll x l1, readAll x l2 with
      | some a, some b => some (a ++ b)
      | _, _ => none := by
  induction l1 with
  | nil =>
    cases h2 : readAll x l2 <;> simp [readAll, h2]
  | cons i is ih =>
    simp only [List.cons_append, readAll, ih]
    cases hx : x[i]? <;>
      cases h1 : readAll x is <;>
      cases h2 : readAll x l2 <;>
      simp [ih, h1, h2]

set_option maxRecDepth 4000 in
/-- Reading the first `n` indices of a list succeeds (with the length-`n`
prefix) exactly when the list has at least `n` elements; otherwise some
read is out of range. -/
theorem readAll_range (x : List ℝ) (n : ℕ) :
    readAll x (List.range n) =
      if n ≤ x.length then some (x.take n) else none := by
  induction n with
  | zero => simp [readAll]
  | succ n ih =>
    rw [List.range_succ, readAll_append, ih]
    by_cases h1 : n + 1 ≤ x.length
    · have h0 : n ≤ x.length := by omega
      have hlt : n < x.length := by omega
      have hget : x[n]? = some (x.get ⟨n, hlt⟩) := List.getElem?_eq_getElem hlt
      have hr : readAll x [n] = some [x.get ⟨n, hlt⟩] := by
        simp [readAll, hget]
      rw [if_pos h0, if_pos h1, hr]
      show some (x.take n ++ [x.get ⟨n, hlt⟩]) = some (x.take (n + 1))
      rw [List.take_succ, hget]
      simp
    · by_cases h0 : n ≤ x.length
      · have hget : x[n]? = none := by
          rw [List.getElem?_eq_none_iff]
          omega
        have hr : readAll x [n] = none := by
          simp [readAll, hget]
        rw [if_pos h0, if_neg h1, hr]
      · rw [if_neg h0, if_neg h1]

/-- The `readFrame` succeeds on a recording with at least `fftSize` samples,
returning the first `fftSize` of them. -/
theorem readFrame_eq_some {x : List ℝ} (h : fftSize ≤ x.length) :
    readFrame x = some (x.take fftSize) := by
  rw [readFrame, readAll_range, if_pos h]

/-- The `readFrame` hits an out-of-range read on a recording shorter than
`fftSize`. -/
theorem readFrame_eq_none {x : List ℝ} (h : x.length < fftSize) :
    readFrame x = none := by
  rw [readFrame, readAll_range, if_neg (by omega)]

/-- The forward transform's reads are in bounds exactly when the input
holds at least `fftSize` samples. -/
theorem readFrame_isSome_iff (x : List ℝ) :
    (readFrame x).isSome = true ↔ fftSize ≤ x.length := by
  constructor
  · intro hs
    by_contra hc
    rw [readFrame_eq_none (by omega)] at hs
    simp at hs
  · intro h
    rw [readFrame_eq_some h]
    rfl

/-- Subtracting a spectrum from itself clamps every bin to 0:
`max(0, |S| - |S|) = 0`. -/
theorem cleanMagnitude_self (x : List ℝ) (k : ℕ) : cleanMagnitude x x k = 0 := by
  simp [cleanMagnitude]

/-- The inverse transform of the zero spectrum is the zero signal
(real slots). -/
theorem idftRe_eq_zero {re im : ℕ → ℝ} (hre : ∀ k, re k = 0)
    (him : ∀ k, im k = 0) (j : ℕ) : idftRe re im j = 0 := by
  simp [idftRe, hre, him]

/-- The inverse transform of the zero spectrum is the zero signal
(imaginary slots). -/
theorem idftIm_eq_zero {re im : ℕ → ℝ} (hre : ∀ k, re k = 0)
    (him : ∀ k, im k = 0) (j : ℕ) : idftIm re im j = 0 := by
  simp [idftIm, hre, him]

/-- The inverse transform writes exactly `2 * 32768` interleaved
entries, whatever the spectrum. -/
theorem length_inverseWrites (re im : ℕ → ℝ) :
    (inverseWrites re im).length = 2 * fftSize := by
  unfold inverseWrites
  rw [List.length_flatten]
  have h : ((List.range fftSize).map
      (fun j => [idftRe re im j, idftIm re im j])).map List.length =
      List.replicate fftSize 2 := by
    rw [List.map_map, List.eq_replicate_iff]
    refine ⟨by simp, ?_⟩
    intro b hb
    rw [List.mem_map] at hb
    obtain ⟨j, _, hj⟩ := hb
    simp at hj
    omega
  rw [h, List.sum_replicate, smul_eq_mul]
  omega

/-- The full interleaved write sequence for identical inputs is the
all-zero list. -/
theorem subtraction_out_self (x : List ℝ) :
    inverseWrites (subResultRe x x) (subResultIm x x) =
      List.replicate (2 * fftSize) 0 := by
  rw [List.eq_replicate_iff]
  refine ⟨length_inverseWrites _ _, ?_⟩
  intro b hb
  unfold inverseWrites at hb
  rw [List.mem_flatten] at hb
  obtain ⟨l, hl, hbl⟩ := hb
  rw [List.mem_map] at hl
  obtain ⟨j, _, hj⟩ := hl
  rw [← hj] at hbl
  have hre : ∀ k, subResultRe x x k = 0 := fun k => by
    simp [subResultRe, cleanMagnitude_self]
  have him : ∀ k, subResultIm x x k = 0 := fun k => by
    simp [subResultIm, cleanMagnitude_self]
  simp only [List.mem_cons, List.not_mem_nil, or_false] at hbl
  rcases hbl with hbl | hbl
  · rw [hbl]; exact idftRe_eq_zero hre him j
  · rw [hbl]; exact idftIm_eq_zero hre him j

section ReducerLemmas

variable {α : Type} [LinearOrder α]

theorem sortPairs_sorted (mags : List α) :
    List.Sorted (peakOrder (α := α)) (sortPairs mags) :=
  List.sorted_insertionSort _ _

theorem sortPairs_perm (mags : List α) :
    List.Perm (sortPairs mags) (mags.enum.map (fun p => (p.2, p.1))) :=
  List.perm_insertionSort _ _

/-- The tagged indices in the sorted pair list are pairwise distinct:
they are a permutation of the enumeration indices. -/
theorem sortPairs_idx_nodup (mags : List α) :
    ((sortPairs mags).map Prod.snd).Nodup := by
  have hperm : List.Perm ((sortPairs mags).map Prod.snd)
      ((mags.enum.map (fun p => (p.2, p.1))).map Prod.snd) :=
    (sortPairs_perm mags).map _
  have heq : (mags.enum.map (fun p : ℕ × α => (p.2, p.1))).map Prod.snd =
      mags.enum.map Prod.fst := by
    simp [List.map_map, Function.comp_def]
  rw [List.Perm.nodup_iff hperm, heq]
  exact List.nodup_enum_map_fst mags

/-- The sorted pair list is strictly ordered: descending magnitude, and
strictly ascending retained index on magnitude ties. -/
theorem sortPairs_pairwise_strict (mags : List α) :
    List.Pairwise (fun a b : α × ℕ => b.1 < a.1 ∨ (a.1 = b.1 ∧ a.2 < b.2))
      (sortPairs mags) := by
  have hs : List.Pairwise (peakOrder (α := α)) (sortPairs mags) := sortPairs_sorted mags
  have hn : List.Pairwise (fun a b : α × ℕ => a.2 ≠ b.2) (sortPairs mags) :=
    List.pairwise_map.mp (sortPairs_idx_nodup mags)
  refine (hs.and hn).imp ?_
  rintro a b ⟨hab, hne⟩
  rcases hab with h | ⟨he, hle⟩
  · exact Or.inl h
  · exact Or.inr ⟨he, lt_of_le_of_ne hle hne⟩

end ReducerLemmas

/-- The frequency similarity score is always within [0, 1]: it is either
the empty-peaks 0 or `matchedCount / max(len₁, len₂)` with
`matchedCount ≤ len₁`. -/
theorem calculateFrequencySimilarity_unit (f1 f2 : FreqFeatures) :
    0 ≤ calculateFrequencySimilarity f1 f2 ∧ calculateFrequencySimilarity f1 f2 ≤ 1 := by
  unfold calculateFrequencySimilarity
  by_cases hc : f1.topPeaks.length = 0 ∨ f2.topPeaks.length = 0
  · rw [if_pos hc]
    norm_num
  · rw [if_neg hc]
    push_neg at hc
    constructor
    · positivity
    · have hcount : (f1.topPeaks.countP
          (fun p1 => f2.topPeaks.any (fun p2 => |p1.frequency - p2.frequency| < 50))) ≤
          max f1.topPeaks.length f2.topPeaks.length :=
        le_trans (List.countP_le_length _) (Nat.le_max_left _ _)
      have hpos : 0 < max f1.topPeaks.length f2.topPeaks.length := by
        have := hc.1
        omega
      rw [div_le_one (by exact_mod_cast hpos)]
      exact_mod_cast hcount

/-- A pushed candidate (`scoreCatalogEntry … = some r`) has confidence
above 0.5, which the frequency contribution alone (at most
`1 × 0.4`) cannot reach, so its reason records a name match. -/
theorem scoreCatalogEntry_accepted (mn : List Char) (fd : Option FreqFeatures)
    (item : CatalogEntry) (r : MatchResult)
    (h : scoreCatalogEntry mn fd item = some r) :
    (1 / 2 : ℚ) < r.confidence ∧
    (r.matchReason = MatchReason.nameOnly ∨ r.matchReason = MatchReason.both) := by
  obtain ⟨rid, rname, rconf, rreason⟩ := r
  by_cases hname : (7 : ℚ)/10 < nameSimilarity mn item.materialName
  · simp only [scoreCatalogEntry, hname, if_true] at h
    split at h
    next hFA =>
      split at h
      next hcond =>
        rw [Option.some_inj, MatchResult.mk.injEq] at h
        obtain ⟨-, -, h3, h4⟩ := h
        subst h3
        subst h4
        exact ⟨hcond, Or.inr (by simp)⟩
      next => exact Option.noConfusion h
    next hFA =>
      split at h
      next hcond =>
        rw [Option.some_inj, MatchResult.mk.injEq] at h
        obtain ⟨-, -, h3, h4⟩ := h
        subst h3
        subst h4
        exact ⟨hcond, Or.inl rfl⟩
      next => exact Option.noConfusion h
  · simp only [scoreCatalogEntry, hname, if_false] at h
    split at h
    next hFA =>
      split at h
      next hcond =>
        exfalso
        rcases fd with - | f
        · norm_num at hcond
        · rcases hcd : item.averageFrequencyData with - | c
          · rw [hcd] at hcond
            norm_num at hcond
          · rw [hcd] at hcond
            norm_num at hcond
            have hb := calculateFrequencySimilarity_unit f c
            nlinarith [hb.1, hb.2, hcond]
      next => exact Option.noConfusion h
    next hFA =>
      split at h
      next hcond =>
        exfalso
        norm_num at hcond
      next => exact Option.noConfusion h

/-! ## 6. Claims -/

set_option maxRecDepth 8000 in
/-- C1, counterexample.  The claim says a session in which zero sample
blocks arrive makes `recordAmbient(1)` fail with the Recording-Timeout
error.  In the code the stop timer at `duration * 1000` ms fires before
the rejection deadline at `(duration + 1) * 1000` ms and its cleanup
cancels it; the callback then throws `NotSupportedError` from
`context.createBuffer(1, 0, sampleRate)` before reaching `resolve`, so
the zero-block session leaves the promise unsettled at 1000 ms — it is
not the Recording-Timeout rejection (nor a successful recording). -/
theorem claim_C1_counterexample :
    recordAudio (α := ℚ) 1 [] = RecordResult.unsettled 1000 ∧
    (recordAudio (α := ℚ) 1 []).isTimeout = false := by
  constructor <;> with_unfolding_all decide

/-- C1, amended.  For every duration and every schedule of sample
blocks, `recordAudio` never rejects with the Recording-Timeout error:
the stop timer at `duration * 1000` ms always precedes the
`(duration + 1) * 1000` ms deadline and cancels it.  A session that
collected no samples then throws from `createBuffer(1, 0, sampleRate)`
inside the stop-timer callback and the promise hangs unsettled; a
session that collected at least one sample resolves successfully at
`duration * 1000` ms with the concatenated samples. -/
theorem claim_C1 {α : Type} (durationS : ℚ) (blocks : List (ℚ × List α)) :
    (recordAudio durationS blocks).isTimeout = false ∧
    (collectedSamples durationS blocks = [] →
      recordAudio durationS blocks = RecordResult.unsettled (durationS * 1000)) ∧
    (collectedSamples durationS blocks ≠ [] →
      recordAudio durationS blocks =
        RecordResult.success (collectedSamples durationS blocks)
          (durationS * 1000)) := by
  have hlt : ¬ ((durationS + 1) * 1000 ≤ durationS * 1000) := by
    have h : (durationS + 1) * 1000 = durationS * 1000 + 1000 := by ring
    rw [h]
    intro hc
    linarith
  refine ⟨?_, ?_, ?_⟩
  · unfold recordAudio
    rw [if_neg hlt]
    by_cases h0 : (collectedSamples durationS blocks).length = 0
    · rw [if_pos h0]
      rfl
    · rw [if_neg h0]
      rfl
  · intro hb
    unfold recordAudio
    rw [if_neg hlt, if_pos (by rw [hb]; rfl)]
  · intro hb
    unfold recordAudio
    rw [if_neg hlt, if_neg (by simpa [List.length_eq_zero] using hb)]

/-- C1, witness for the amended statement: the zero-block schedule hangs
unsettled; a schedule with one early chunk resolves successfully. -/
theorem claim_C1_witness :
    (recordAudio (α := ℚ) 1 [] = RecordResult.unsettled (1 * 1000)) ∧
    (recordAudio (α := ℚ) 1 [(100, [5])] =
      RecordResult.success (collectedSamples 1 [(100, [5])]) (1 * 1000)) :=
  ⟨(claim_C1 1 []).2.1 rfl,
    (claim_C1 1 [(100, [5])]).2.2 (by with_unfolding_all decide)⟩

/-- C8.  The name-similarity function, on lower-cased inputs as the
matcher calls it: 1 for case-insensitively identical strings; 9/10 when
one is a substring of the other; otherwise the number of the shorter
string's characters occurring in the longer one divided by the longer
length; the result is always in [0, 1]; and on `"cardboard"`/`"xyz"` it
is in [0, 1] and strictly below 7/10. -/
theorem claim_C8 (s1 s2 : List Char) :
    (jsToLower s1 = jsToLower s2 → nameSimilarity s1 s2 = 1) ∧
    (jsToLower s1 ≠ jsToLower s2 →
      (jsToLower s2 <:+: jsToLower s1 ∨ jsToLower s1 <:+: jsToLower s2) →
      nameSimilarity s1 s2 = 9 / 10) ∧
    (jsToLower s1 ≠ jsToLower s2 →
      ¬(jsToLower s2 <:+: jsToLower s1 ∨ jsToLower s1 <:+: jsToLower s2) →
      nameSimilarity s1 s2 =
        (((if (jsToLower s2).length < (jsToLower s1).length then jsToLower s2
            else jsToLower s1).filter
            (fun c => (if (jsToLower s2).length < (jsToLower s1).length then jsToLower s1
              else jsToLower s2).contains c)).length : ℚ) /
          (((if (jsToLower s2).length < (jsToLower s1).length then jsToLower s1
            else jsToLower s2).length : ℚ))) ∧
    (0 ≤ nameSimilarity s1 s2 ∧ nameSimilarity s1 s2 ≤ 1) ∧
    (0 ≤ nameSimilarity "cardboard".toList "xyz".toList ∧
      nameSimilarity "cardboard".toList "xyz".toList ≤ 1 ∧
      nameSimilarity "cardboard".toList "xyz".toList < 7 / 10) := by
  refine ⟨?_, ?_, ?_, ?_, by with_unfolding_all decide⟩
  · intro h
    simp [nameSimilarity, calculateNameSimilarity, h]
  · intro hne hsub
    simp [nameSimilarity, calculateNameSimilarity, hne, hsub]
  · intro hne hsub
    simp only [nameSimilarity, calculateNameSimilarity, if_neg hne, if_neg hsub]
  · unfold nameSimilarity calculateNameSimilarity
    split_ifs with h1 h2 h3
    · norm_num
    · norm_num
    · constructor
      · positivity
      · set longer := jsToLower s1 with hl
        set shorter := jsToLower s2 with hsh
        have hov : ((shorter.filter (fun c => longer.contains c)).length : ℚ) ≤
            (longer.length : ℚ) := by
          have h5 : (shorter.filter (fun c => longer.contains c)).length ≤ shorter.length :=
            List.length_filter_le _ _
          have h6 : shorter.length ≤ longer.length := by omega
          exact_mod_cast le_trans h5 h6
        rcases Nat.eq_zero_or_pos longer.length with hz | hz
        · simp [hz]
        · rw [div_le_one (by exact_mod_cast hz)]
          exact hov
    · constructor
      · positivity
      · set longer := jsToLower s2 with hl
        set shorter := jsToLower s1 with hsh
        have hov : ((shorter.filter (fun c => longer.contains c)).length : ℚ) ≤
            (longer.length : ℚ) := by
          have h5 : (shorter.filter (fun c => longer.contains c)).length ≤ shorter.length :=
            List.length_filter_le _ _
          have h6 : shorter.length ≤ longer.length := by omega
          exact_mod_cast le_trans h5 h6
        rcases Nat.eq_zero_or_pos longer.length with hz | hz
        · simp [hz]
        · rw [div_le_one (by exact_mod_cast hz)]
          exact hov

/-- C8, witness: on `"plastic bottle"` vs itself the similarity is 1;
on `"plastic bottle"` vs `"bottle"` (a substring, not equal) it is 9/10. -/
theorem claim_C8_witness :
    nameSimilarity "plastic bottle".toList "plastic bottle".toList = 1 ∧
    nameSimilarity "plastic bottle".toList "bottle".toList = 9 / 10 :=
  ⟨(claim_C8 "plastic bottle".toList "plastic bottle".toList).1 rfl,
    (claim_C8 "plastic bottle".toList "bottle".toList).2.1 (by decide) (by decide)⟩

/-- C4, counterexample.  The claim says a recording shorter than one
transform frame makes the spectral analysis step fail with an
AnalysisFailure.  `computeSTFT` is a total function with no failure
path: on a 100-sample recording the frame loop runs zero times and a
normal `FrequencyData` profile is returned whose magnitudes are all
exactly 0 — precisely the silent recovery the claim rules out. -/
theorem claim_C4_counterexample :
    numFramesN (List.replicate 100 (0 : ℝ)).length = 0 ∧
    (computeSTFT (List.replicate 100 (0 : ℝ))).magnitudes = List.replicate numBins 0 ∧
    (computeSTFT (List.replicate 100 (0 : ℝ))).frequencies.length = numBins := by
  have h : (List.replicate 100 (0 : ℝ)).length < fftSize := by
    simp [fftSize]
  exact ⟨numFramesN_eq_zero h, computeSTFT_short_magnitudes h, by simp [computeSTFT]⟩

/-- C4, amended.  For every recording shorter than one transform
frame the transform stage yields zero frames, and `computeSTFT` silently
returns a normal profile whose magnitudes are all exactly 0 — no
AnalysisFailure is raised (the function is total). -/
theorem claim_C4 (audio : List ℝ) (h : audio.length < fftSize) :
    numFramesN audio.length = 0 ∧
    (computeSTFT audio).magnitudes = List.replicate numBins 0 ∧
    (computeSTFT audio).magnitudes.length = numBins :=
  ⟨numFramesN_eq_zero h, computeSTFT_short_magnitudes h, by simp [computeSTFT]⟩

/-- C4, witness at the empty recording. -/
theorem claim_C4_witness :
    (List.length ([] : List ℝ) < fftSize) ∧
    (computeSTFT []).magnitudes = List.replicate numBins 0 :=
  ⟨by simp [fftSize], (claim_C4 [] (by simp [fftSize])).2.1⟩

/-- C3.  For every input waveform: the averaged spectrum has
`numBins` frequencies and magnitudes; every magnitude is ≥ 0; the `i`-th
frequency is exactly `(minBin + i) * sampleRate / transformSize`; and
the `i`-th magnitude is the average of that bin's value over exactly the
frames exceeding the 1e-5 noise floor, with 0 when no frame qualifies. -/
theorem claim_C3 (audio : List ℝ) (i : ℕ) (h : i < numBins) :
    (computeSTFT audio).frequencies.length = numBins ∧
    (computeSTFT audio).magnitudes.length = numBins ∧
    0 ≤ (computeSTFT audio).magnitudes.getD i 0 ∧
    (computeSTFT audio).frequencies.getD i 0 =
      ((minBin : ℝ) + (i : ℝ)) * ((SAMPLE_RATE : ℝ) / (fftSize : ℝ)) ∧
    (computeSTFT audio).magnitudes.getD i 0 =
      (let vals := (List.range (numFramesN audio.length)).map
          (fun frame => frameBinMagnitude audio frame i)
       let qualifying := vals.filter (fun m => decide (THRESHOLD < m))
       if qualifying.length = 0 then 0 else qualifying.sum / (qualifying.length : ℝ)) := by
  have hfreq : (computeSTFT audio).frequencies.getD i 0 =
      ((minBin + i : ℕ) : ℝ) * binWidthR := by
    simp [computeSTFT, List.getD, List.getElem?_map, List.getElem?_range h]
  have hmag : (computeSTFT audio).magnitudes.getD i 0 =
      selectiveAverage ((List.range (numFramesN audio.length)).map
        (fun frame => frameBinMagnitude audio frame i)) := by
    simp [computeSTFT, List.getD, List.getElem?_map, List.getElem?_range h]
  refine ⟨by simp [computeSTFT], by simp [computeSTFT], ?_, ?_, ?_⟩
  · rw [hmag]; exact selectiveAverage_nonneg _
  · rw [hfreq, binWidthR]; push_cast; ring
  · rw [hmag]; rfl

/-- C3, witness at the empty waveform and bin 0. -/
theorem claim_C3_witness :
    (0 < numBins) ∧
    ((computeSTFT []).frequencies.length = numBins ∧
      0 ≤ (computeSTFT []).magnitudes.getD 0 0) :=
  ⟨by decide, (claim_C3 [] 0 (by decide)).1, (claim_C3 [] 0 (by decide)).2.2.1⟩

/-- C2.  Subtracting a recording (with at least one transform frame
of samples) from itself: every bin's clean magnitude
`max(0, |S| - |A|)` is 0 because the two transforms coincide, and the
reconstructed time-domain output is the all-zero waveform of the
recording's length. -/
theorem claim_C2 (r : AudioRecording) (h : fftSize ≤ r.rawData.length) :
    (∀ k, cleanMagnitude (r.rawData.take fftSize) (r.rawData.take fftSize) k = 0) ∧
    spectralSubtraction r r = some (List.replicate r.rawData.length 0) := by
  refine ⟨fun k => cleanMagnitude_self _ k, ?_⟩
  unfold spectralSubtraction
  rw [readFrame_eq_some h]
  simp only [subtraction_out_self, List.length_replicate, List.take_replicate]
  rw [← List.replicate_add]
  have hlen : min r.rawData.length (2 * fftSize) + (r.rawData.length - 2 * fftSize) =
      r.rawData.length := by omega
  rw [hlen]

/-- C2, witness at the 32768-sample all-zero recording. -/
theorem claim_C2_witness :
    fftSize ≤ (List.replicate fftSize (0 : ℝ)).length ∧
    spectralSubtraction ⟨List.replicate fftSize 0, 44100, 0⟩
        ⟨List.replicate fftSize 0, 44100, 0⟩ =
      some (List.replicate (List.replicate fftSize (0 : ℝ)).length 0) :=
  ⟨by simp,
    (claim_C2 ⟨List.replicate fftSize 0, 44100, 0⟩ (by simp)).2⟩

/-- C10, counterexample: the standard 44100-sample recording (one
second at 44100 Hz) satisfies the claim's precondition — at least
32768 samples, so its ambient-sized output buffer has at least 32768
slots — yet `inverseTransform`'s write footprint, the full interleaved
complex result of `2 * 32768 = 65536` entries, does not fit in the
44100-slot buffer: the trailing writes go out of bounds (silently
dropped by the `Float32Array`). -/
theorem claim_C10_counterexample :
    fftSize ≤ (List.replicate 44100 (0 : ℝ)).length ∧
    ¬((inverseWrites
        (subResultRe ((List.replicate 44100 (0 : ℝ)).take fftSize)
          ((List.replicate 44100 (0 : ℝ)).take fftSize))
        (subResultIm ((List.replicate 44100 (0 : ℝ)).take fftSize)
          ((List.replicate 44100 (0 : ℝ)).take fftSize))).length ≤
      (List.replicate 44100 (0 : ℝ)).length) := by
  constructor
  · rw [List.length_replicate]
    norm_num [fftSize]
  · rw [length_inverseWrites, List.length_replicate]
    norm_num [fftSize]

/-- C10, amended.  `spectralSubtraction` always runs a size-32768
transform: its reads are exactly the first 32768 samples of each
recording, whatever the recordings' lengths, and shorter recordings
make the forward transform read past the end.  The inverse transform
however writes its full interleaved complex result — `2 * 32768 =
65536` entries — into the ambient-sized buffer, so its writes are in
bounds exactly when the ambient recording holds at least 65536
samples, not 32768; with both recordings at least one frame long the
call still returns a buffer (out-of-bounds typed-array writes are
silently dropped, not faulted). -/
theorem claim_C10 :
    (∀ x : List ℝ, (readFrame x).isSome = true ↔ fftSize ≤ x.length) ∧
    (∀ a s : AudioRecording, fftSize ≤ a.rawData.length → fftSize ≤ s.rawData.length →
      (spectralSubtraction a s).isSome = true) ∧
    (∀ a s : AudioRecording, a.rawData.length < fftSize ∨ s.rawData.length < fftSize →
      spectralSubtraction a s = none) ∧
    (∀ re im : ℕ → ℝ, (inverseWrites re im).length = 2 * fftSize) ∧
    (∀ (a : AudioRecording) (re im : ℕ → ℝ),
      (inverseWrites re im).length ≤ a.rawData.length ↔
        2 * fftSize ≤ a.rawData.length) := by
  refine ⟨readFrame_isSome_iff, ?_, ?_, length_inverseWrites, ?_⟩
  · intro a s ha hs
    unfold spectralSubtraction
    rw [readFrame_eq_some ha, readFrame_eq_some hs]
    rfl
  · intro a s h
    rcases h with h | h
    · unfold spectralSubtraction
      rw [readFrame_eq_none h]
    · unfold spectralSubtraction
      rw [readFrame_eq_none h]
      cases readFrame a.rawData <;> rfl
  · intro a re im
    rw [length_inverseWrites]

/-- C10, witness: a frame-long read succeeds; the call returns a
buffer at two 32768-sample recordings; an empty ambient recording
makes the forward transform read out of range; the write footprint
fits a 65536-slot buffer. -/
theorem claim_C10_witness :
    ((readFrame (List.replicate fftSize (0 : ℝ))).isSome = true) ∧
    ((spectralSubtraction ⟨List.replicate fftSize 0, 44100, 0⟩
        ⟨List.replicate fftSize 0, 44100, 0⟩).isSome = true) ∧
    (spectralSubtraction ⟨[], 44100, 0⟩ ⟨List.replicate fftSize 0, 44100, 0⟩ = none) ∧
    ((inverseWrites (fun _ => (0 : ℝ)) (fun _ => 0)).length ≤
      (List.replicate (2 * fftSize) (0 : ℝ)).length) :=
  ⟨(claim_C10.1 _).mpr (by simp),
    claim_C10.2.1 _ _ (by simp) (by simp),
    claim_C10.2.2.1 _ _ (Or.inl (by simp [fftSize])),
    (claim_C10.2.2.2.2 ⟨List.replicate (2 * fftSize) 0, 44100, 0⟩ _ _).mpr (by simp)⟩

/-- C5.  For every frequency profile (paired lists of equal length,
however long), the record that reaches persistence — the reducer's
stride-50 fingerprint passed through `createMaterial`'s cap — has
equally many frequencies and magnitudes, and at most 200 of each. -/
theorem claim_C5 {α : Type} [LinearOrder α] (freqs mags : List α)
    (h : freqs.length = mags.length) :
    (capFrequencyData (startMaterialScanFingerprint freqs mags)).frequencies.length =
      (capFrequencyData (startMaterialScanFingerprint freqs mags)).magnitudes.length ∧
    (capFrequencyData (startMaterialScanFingerprint freqs mags)).frequencies.length ≤ 200 := by
  have hf : (startMaterialScanFingerprint freqs mags).frequencies = everyNth freqs 50 := rfl
  have hm : (startMaterialScanFingerprint freqs mags).magnitudes = everyNth mags 50 := rfl
  have hlen : (startMaterialScanFingerprint freqs mags).frequencies.length =
      (startMaterialScanFingerprint freqs mags).magnitudes.length := by
    rw [hf, hm, length_everyNth _ _ (by omega), length_everyNth _ _ (by omega), h]
  unfold capFrequencyData
  by_cases hc : 200 < (startMaterialScanFingerprint freqs mags).frequencies.length
  · rw [if_pos hc]
    have hstep : 1 ≤ ((startMaterialScanFingerprint freqs mags).frequencies.length + 199) / 200 := by
      rw [Nat.one_le_div_iff (by omega)]
      omega
    constructor
    · show (everyNth _ _).length = (everyNth _ _).length
      rw [length_everyNth _ _ hstep, length_everyNth _ _ hstep, hlen]
    · show (everyNth _ _).length ≤ 200
      exact length_everyNth_cap _ hc
  · rw [if_neg hc]
    exact ⟨hlen, by omega⟩

/-- C5, witness at a concrete two-point profile. -/
theorem claim_C5_witness :
    ([(1 : ℚ), 2].length = [(5 : ℚ), 7].length) ∧
    (capFrequencyData (startMaterialScanFingerprint [(1 : ℚ), 2] [(5 : ℚ), 7])).frequencies.length =
      (capFrequencyData (startMaterialScanFingerprint [(1 : ℚ), 2] [(5 : ℚ), 7])).magnitudes.length ∧
    (capFrequencyData (startMaterialScanFingerprint [(1 : ℚ), 2] [(5 : ℚ), 7])).frequencies.length ≤ 200 :=
  ⟨rfl, (claim_C5 [1, 2] [5, 7] rfl).1, (claim_C5 [1, 2] [5, 7] rfl).2⟩

/-- Above the cap threshold, `createMaterial` re-decimates the
magnitudes with the coarser stride. -/
theorem cap_magnitudes_of_big {α : Type} [LinearOrder α] (fp : ScanFingerprint α)
    (h : 200 < fp.frequencies.length) :
    (capFrequencyData fp).magnitudes =
      everyNth fp.magnitudes ((fp.frequencies.length + 199) / 200) := by
  unfold capFrequencyData
  rw [if_pos h]

/-- Above the cap threshold, `createMaterial` re-decimates the
frequencies with the coarser stride. -/
theorem cap_frequencies_of_big {α : Type} [LinearOrder α] (fp : ScanFingerprint α)
    (h : 200 < fp.frequencies.length) :
    (capFrequencyData fp).frequencies =
      everyNth fp.frequencies ((fp.frequencies.length + 199) / 200) := by
  unfold capFrequencyData
  rw [if_pos h]

/-- The cap leaves `peakMagnitude` untouched. -/
theorem cap_peakMagnitude {α : Type} [LinearOrder α] (fp : ScanFingerprint α) :
    (capFrequencyData fp).peakMagnitude = fp.peakMagnitude := by
  unfold capFrequencyData
  split <;> rfl

/-- The cap leaves `topPeaks` untouched. -/
theorem cap_topPeaks {α : Type} [LinearOrder α] (fp : ScanFingerprint α) :
    (capFrequencyData fp).topPeaks = fp.topPeaks := by
  unfold capFrequencyData
  split <;> rfl

theorem wide_length_eq : wideFreqs.length = wideMags.length := by
  rw [wideFreqs, wideMags, List.length_replicate, List.length_append,
    List.length_replicate, List.length_cons, List.length_replicate]

set_option maxRecDepth 100000 in
/-- The stride-50 retained magnitudes of the concrete wide profile: 199
zeros, the peak 7 at retained position 199, one trailing zero. -/
theorem everyNth_wideMags :
    everyNth wideMags 50 = List.replicate 199 (0 : ℚ) ++ 7 :: List.replicate 1 0 := by
  with_unfolding_all decide

theorem length_everyNth_wideFreqs : (everyNth wideFreqs 50).length = 201 := by
  rw [length_everyNth _ _ (by omega)]
  norm_num [wideFreqs]

/-- The retained set's maximum is the peak value 7. -/
theorem max_everyNth_wideMags : (everyNth wideMags 50).max? = some 7 := by
  rw [everyNth_wideMags]
  haveI : Std.Antisymm ((· : ℚ) ≤ ·) := ⟨fun h1 h2 => le_antisymm h1 h2⟩
  rw [List.max?_eq_some_iff (fun a : ℚ => le_refl a) (fun a b => max_choice a b)
    (fun _ _ _ => max_le_iff)]
  constructor
  · exact List.mem_append_right _ (List.mem_cons_self _ _)
  · intro b hb
    rcases List.mem_append.mp hb with hb | hb
    · rw [List.eq_of_mem_replicate hb]
      norm_num
    · rcases List.mem_cons.mp hb with rfl | hb
      · exact le_refl _
      · rw [List.eq_of_mem_replicate hb]
        norm_num

/-- The `indexOf` finds the peak at retained position 199. -/
theorem indexOf_everyNth_wideMags : (everyNth wideMags 50).indexOf 7 = 199 := by
  have hnm : (7 : ℚ) ∉ List.replicate 199 (0 : ℚ) := by
    intro hmem
    have := List.eq_of_mem_replicate hmem
    norm_num at this
  rw [everyNth_wideMags, List.indexOf_append_of_not_mem hnm]
  have h0 : (7 :: List.replicate 1 (0 : ℚ)).indexOf 7 = 0 := by decide
  rw [h0, List.length_replicate]

theorem get_everyNth_wideMags : (everyNth wideMags 50).get? 199 = some 7 := by
  rw [everyNth_wideMags]
  decide

/-- The reducer reports the uncapped peak value 7 on the wide profile. -/
theorem peakMagnitude_wide :
    (startMaterialScanFingerprint wideFreqs wideMags).peakMagnitude = some 7 := by
  simp only [startMaterialScanFingerprint, maxMagIndex]
  rw [max_everyNth_wideMags, Option.map_some', Option.some_bind,
    indexOf_everyNth_wideMags]
  exact get_everyNth_wideMags

/-- C6, counterexample.  The claim says that when the stride-50
retained set exceeds 200 entries, the coarser `ceil(len/200)` stride is
applied *before* peak extraction, so the peaks come from the capped set.
On the concrete profile `wideFreqs`/`wideMags` the retained set has 201
entries and its single nonzero magnitude 7 sits at retained position 199;
the persisted record still reports `peakMagnitude = 7` even though its
capped (stride-2) magnitude list no longer contains 7 — the peak was
extracted from the uncapped retained set, not from the capped one. -/
theorem claim_C6_counterexample :
    200 < (startMaterialScanFingerprint wideFreqs wideMags).magnitudes.length ∧
    (capFrequencyData (startMaterialScanFingerprint wideFreqs wideMags)).peakMagnitude = some 7 ∧
    ((capFrequencyData (startMaterialScanFingerprint wideFreqs wideMags)).magnitudes.contains 7)
      = false := by
  have hc : 200 < (startMaterialScanFingerprint wideFreqs wideMags).frequencies.length := by
    simp only [startMaterialScanFingerprint]
    rw [length_everyNth_wideFreqs]
    norm_num
  refine ⟨?_, ?_, ?_⟩
  · simp only [startMaterialScanFingerprint]
    rw [everyNth_wideMags, List.length_append, List.length_replicate,
      List.length_cons, List.length_replicate]
    norm_num
  · rw [cap_peakMagnitude]
    exact peakMagnitude_wide
  · rw [cap_magnitudes_of_big _ hc]
    simp only [startMaterialScanFingerprint]
    rw [length_everyNth_wideFreqs, everyNth_wideMags]
    with_unfolding_all decide

/-- C6, amended.  When the stride-50 retained set exceeds 200
entries, a second, coarser stride `ceil(retainedLength / 200)` is
applied — but in the persistence layer, to the retained frequencies and
magnitudes only, *after* peak extraction: the persisted `peakMagnitude`
and `topPeaks` are the ones computed from the uncapped stride-50
retained set, while the capped lists stay within 200 entries. -/
theorem claim_C6 {α : Type} [LinearOrder α] (freqs mags : List α)
    (h : freqs.length = mags.length)
    (hbig : 200 < (everyNth freqs 50).length) :
    (capFrequencyData (startMaterialScanFingerprint freqs mags)).frequencies =
      everyNth (everyNth freqs 50) (((everyNth freqs 50).length + 199) / 200) ∧
    (capFrequencyData (startMaterialScanFingerprint freqs mags)).magnitudes =
      everyNth (everyNth mags 50) (((everyNth freqs 50).length + 199) / 200) ∧
    (capFrequencyData (startMaterialScanFingerprint freqs mags)).peakMagnitude =
      (startMaterialScanFingerprint freqs mags).peakMagnitude ∧
    (capFrequencyData (startMaterialScanFingerprint freqs mags)).topPeaks =
      (startMaterialScanFingerprint freqs mags).topPeaks ∧
    (capFrequencyData (startMaterialScanFingerprint freqs mags)).magnitudes.length ≤ 200 := by
  have hmlen : (everyNth mags 50).length = (everyNth freqs 50).length := by
    rw [length_everyNth _ _ (by omega), length_everyNth _ _ (by omega), h]
  have hc : 200 < (startMaterialScanFingerprint freqs mags).frequencies.length := hbig
  have hbig' : 200 < (everyNth mags 50).length := by omega
  refine ⟨cap_frequencies_of_big _ hc, cap_magnitudes_of_big _ hc,
    cap_peakMagnitude _, cap_topPeaks _, ?_⟩
  rw [cap_magnitudes_of_big _ hc]
  show (everyNth (everyNth mags 50)
      (((everyNth freqs 50).length + 199) / 200)).length ≤ 200
  rw [show ((everyNth freqs 50).length + 199) / 200 =
      ((everyNth mags 50).length + 199) / 200 by rw [hmlen]]
  exact length_everyNth_cap _ hbig'

/-- C6, witness for the amended statement, at the same concrete
10001-point profile. -/
theorem claim_C6_witness :
    (wideFreqs.length = wideMags.length) ∧
    (200 < (everyNth wideFreqs 50).length) ∧
    (capFrequencyData (startMaterialScanFingerprint wideFreqs wideMags)).peakMagnitude =
      (startMaterialScanFingerprint wideFreqs wideMags).peakMagnitude ∧
    (capFrequencyData (startMaterialScanFingerprint wideFreqs wideMags)).magnitudes.length ≤ 200 :=
  ⟨wide_length_eq,
    by rw [length_everyNth_wideFreqs]; norm_num,
    (claim_C6 wideFreqs wideMags wide_length_eq
      (by rw [length_everyNth_wideFreqs]; norm_num)).2.2.1,
    (claim_C6 wideFreqs wideMags wide_length_eq
      (by rw [length_everyNth_wideFreqs]; norm_num)).2.2.2.2⟩

/-- C7.  The feature reducer is a pure function (identical inputs
give identical fingerprints); `topPeaks` has at most five entries; it is
the image of the first five entries of the stably sorted tagged
magnitude list, which is strictly ordered by descending magnitude with
magnitude ties resolved toward the pair occurring first in the retained
order; consequently the `topPeaks` magnitudes are descending. -/
theorem claim_C7 {α : Type} [LinearOrder α] (freqs mags freqs2 mags2 : List α)
    (h1 : freqs = freqs2) (h2 : mags = mags2) :
    startMaterialScanFingerprint freqs mags = startMaterialScanFingerprint freqs2 mags2 ∧
    (startMaterialScanFingerprint freqs mags).topPeaks.length ≤ 5 ∧
    (startMaterialScanFingerprint freqs mags).topPeaks =
      (topPeakPairs (everyNth mags 50)).map
        (fun p => ((everyNth freqs 50).get? p.2, p.1)) ∧
    List.Pairwise (fun a b : α × ℕ => b.1 < a.1 ∨ (a.1 = b.1 ∧ a.2 < b.2))
      (topPeakPairs (everyNth mags 50)) ∧
    List.Pairwise (fun x y : Option α × α => y.2 ≤ x.2)
      (startMaterialScanFingerprint freqs mags).topPeaks := by
  subst h1
  subst h2
  have hstrict : List.Pairwise (fun a b : α × ℕ => b.1 < a.1 ∨ (a.1 = b.1 ∧ a.2 < b.2))
      (topPeakPairs (everyNth mags 50)) :=
    (sortPairs_pairwise_strict _).sublist (List.take_sublist _ _)
  refine ⟨rfl, ?_, rfl, hstrict, ?_⟩
  · show ((topPeakPairs (everyNth mags 50)).map
        (fun p => ((everyNth freqs 50).get? p.2, p.1))).length ≤ 5
    rw [List.length_map]
    unfold topPeakPairs
    rw [List.length_take]
    omega
  · show List.Pairwise (fun x y : Option α × α => y.2 ≤ x.2)
        ((topPeakPairs (everyNth mags 50)).map
          (fun p => ((everyNth freqs 50).get? p.2, p.1)))
    rw [List.pairwise_map]
    refine hstrict.imp ?_
    rintro a b (hlt | ⟨he, -⟩)
    · exact le_of_lt hlt
    · exact le_of_eq he.symm

/-- C7, witness at a concrete profile. -/
theorem claim_C7_witness :
    startMaterialScanFingerprint (α := ℚ) [1, 2] [3, 4] =
      startMaterialScanFingerprint [1, 2] [3, 4] ∧
    (startMaterialScanFingerprint (α := ℚ) [1, 2] [3, 4]).topPeaks.length ≤ 5 :=
  ⟨(claim_C7 [1, 2] [3, 4] [1, 2] [3, 4] rfl rfl).1,
    (claim_C7 [1, 2] [3, 4] [1, 2] [3, 4] rfl rfl).2.1⟩

/-- C9.  Every candidate the matcher returns was accepted with
confidence above 0.5, and its reason is `'name'` or `'both'` — never
`'frequency'` alone and never `'none'`: the frequency contribution is at
most `1 × 0.4`, which cannot clear the 0.5 threshold without a name
contribution. -/
theorem claim_C9 (materialName : List Char) (frequencyData : Option FreqFeatures)
    (catalog : List CatalogEntry) (r : MatchResult)
    (hr : r ∈ matchMaterialToCatalog materialName frequencyData catalog) :
    (1 / 2 : ℚ) < r.confidence ∧
    (r.matchReason = MatchReason.nameOnly ∨ r.matchReason = MatchReason.both) := by
  unfold matchMaterialToCatalog at hr
  have hr2 : r ∈ (catalog.filterMap
      (scoreCatalogEntry materialName frequencyData)).insertionSort confDesc :=
    List.mem_of_mem_take hr
  rw [(List.perm_insertionSort confDesc _).mem_iff] at hr2
  rw [List.mem_filterMap] at hr2
  obtain ⟨item, _, hscore⟩ := hr2
  exact scoreCatalogEntry_accepted _ _ _ _ hscore

/-- C9, witness: the case-variant query `"aluminum can"` against a
one-entry catalog `"Aluminum Can"` (no frequency data) yields the
accepted candidate with confidence 3/5 and reason `'name'`. -/
theorem claim_C9_witness :
    ((⟨0, "Aluminum Can".toList, 3/5, MatchReason.nameOnly⟩ : MatchResult) ∈
      matchMaterialToCatalog "aluminum can".toList none
        [⟨0, "Aluminum Can".toList, none⟩]) ∧
    ((1 / 2 : ℚ) <
        (⟨0, "Aluminum Can".toList, 3/5, MatchReason.nameOnly⟩ : MatchResult).confidence ∧
      ((⟨0, "Aluminum Can".toList, 3/5, MatchReason.nameOnly⟩ : MatchResult).matchReason =
          MatchReason.nameOnly ∨
        (⟨0, "Aluminum Can".toList, 3/5, MatchReason.nameOnly⟩ : MatchResult).matchReason =
          MatchReason.both)) :=
  ⟨by with_unfolding_all decide,
    claim_C9 "aluminum can".toList none [⟨0, "Aluminum Can".toList, none⟩] _
      (by with_unfolding_all decide)⟩

end Sweepy
